import Mathlib

/-!
# asynqmon task handlers (`task_handlers.go`)

A shallow embedding of the HTTP handlers for the task endpoints:
the five listing handlers, the single-task delete handler, the batch-delete
handler for dead tasks and `getPageOptions`.

Conventions of the embedding.

* A Go `string` is a Lean `String`; a Go `int` is an `Int` (the range of the
  platform's `int` only matters inside `strconv.Atoi`, which takes the bit
  size `intSize` as a parameter).
* A Go slice is a `Slice`: the `nil` slice and a non-nil slice are different
  values, also when both are empty.
* A Go `error` is an `Option GoError`: `none` is `nil`.
* The store behind `*asynq.Inspector` is explicit state `σ`: every inspector
  method takes the state and returns its results with the next state.
* A handler returns the calls it makes on its `http.ResponseWriter`, in
  order, as a list of `Effect`.
-/

namespace Asynqmon

/-! ## Go values -/

/-- A Go slice value: `nil` (the zero value) or a non-nil slice with its
elements. -/
inductive Slice (α : Type) where
  | nil : Slice α
  | mk (elems : List α) : Slice α
  deriving DecidableEq, Repr

namespace Slice

/-- The elements of a slice, in order (what `for _, x := range s` visits). -/
def toList {α : Type} : Slice α → List α
  | nil => []
  | mk xs => xs

/-- Go `len(s)`. -/
def len {α : Type} (s : Slice α) : Nat := s.toList.length

/-- Go `append(s, x)`: the result is never `nil`. -/
def append {α : Type} (s : Slice α) (x : α) : Slice α := mk (s.toList ++ [x])

/-- Go `make([]T, 0)`: a non-nil slice of length 0. -/
def make0 {α : Type} : Slice α := mk []

/-- Go `s == nil`. -/
def isNil {α : Type} : Slice α → Bool
  | nil => true
  | mk _ => false

end Slice

/-- A non-nil Go `error`: the text `err.Error()` returns, and whether it is
the store's task-not-found condition (no handler of this file inspects it). -/
structure GoError where
  msg : String
  notFound : Bool
  deriving DecidableEq, Repr

/-! ## `net/http` status codes used by the handlers -/

def StatusNoContent : Nat := 204
def StatusBadRequest : Nat := 400
def StatusInternalServerError : Nat := 500

/-! ## Query values and `strconv.Atoi` -/

/-- `url.Values`: the values given for each key of the query string. -/
abbrev Values := String → List String

/-- `url.Values.Get`: the first value of the key, `""` if there is none. -/
def Values.Get (v : Values) (key : String) : String :=
  match v key with
  | [] => ""
  | s :: _ => s

/-- The value of a decimal digit character. -/
def digitVal (c : Char) : Option Nat :=
  if 48 ≤ c.toNat ∧ c.toNat ≤ 57 then some (c.toNat - 48) else none

/-- The unsigned value of a string of decimal digits read left to right,
`none` when a character is not a digit. -/
def parseDigits : List Char → Nat → Option Nat
  | [], acc => some acc
  | c :: cs, acc =>
    match digitVal c with
    | none => none
    | some d => parseDigits cs (acc * 10 + d)

/-- `strconv.Atoi` (`ParseInt(s, 10, 0)`) on a platform whose `int` has
`intSize` bits: `some n` when it returns `(n, nil)`, `none` when it returns a
non-nil error. The string is an optional sign `+` or `-` followed by at least
one decimal digit, and the value must fit a signed `intSize`-bit integer. -/
def Atoi (intSize : Nat) (s : String) : Option Int :=
  match s.data with
  | [] => none
  | c :: cs =>
    let neg := c == '-'
    let ds := if c == '+' || c == '-' then cs else c :: cs
    match ds with
    | [] => none
    | _ =>
      match parseDigits ds 0 with
      | none => none
      | some un =>
        let cutoff := 2 ^ (intSize - 1)
        if !neg && un ≥ cutoff then none
        else if neg && un > cutoff then none
        else some (if neg then - (un : Int) else (un : Int))

/-- An `io.Reader` seen from its consumer: the bytes it delivers, and the
error that ends the stream (`none` for `io.EOF`). -/
structure Reader where
  data : List Nat
  err : Option GoError

/-- The part of `*http.Request` the handlers read: the parsed query
(`r.URL.Query()`), the route variables (`mux.Vars(r)`) and the body
(`r.Body`). -/
structure Request where
  query : Values
  vars : String → String
  body : Reader

/-- `getPageOptions`: the page size and number of the request URL if set,
otherwise the defaults 20 and 1. -/
def getPageOptions (intSize : Nat) (r : Request) : Int × Int :=
  let pageSize : Int := 20
  let pageNum : Int := 1
  let q := r.query
  let pageSize :=
    if q.Get "size" ≠ "" then
      match Atoi intSize (q.Get "size") with
      | some n => n
      | none => pageSize
    else pageSize
  let pageNum :=
    if q.Get "page" ≠ "" then
      match Atoi intSize (q.Get "page") with
      | some n => n
      | none => pageNum
    else pageNum
  (pageSize, pageNum)

/-! ## Responses -/

/-- A call a handler makes on its `http.ResponseWriter`; `P` is the type of
the value handed to the JSON encoder. -/
inductive Effect (P : Type) where
  /-- The call `http.Error(w, msg, code)`. -/
  | httpError (msg : String) (code : Nat) : Effect P
  /-- The call `w.WriteHeader(code)`. -/
  | writeHeader (code : Nat) : Effect P
  /-- The call `json.NewEncoder(w).Encode(v)`. -/
  | encode (v : P) : Effect P
  deriving DecidableEq, Repr

/-- The status code of the effect, if it sets one. -/
def Effect.status {P : Type} : Effect P → Option Nat
  | .httpError _ code => some code
  | .writeHeader code => some code
  | .encode _ => none

/-- A Go `map[string]V`. -/
abbrev GoMap (V : Type) := String → Option V

/-- Go `make(map[string]V)`. -/
def GoMap.make {V : Type} : GoMap V := fun _ => none

/-- Go `m[key] = v`. -/
def GoMap.set {V : Type} (m : GoMap V) (key : String) (v : V) : GoMap V :=
  fun k => if k = key then some v else m k

/-- What the listing handlers store in their `map[string]interface{}`:
a slice of task views or a queue snapshot. -/
inductive PayloadValue (View Snap : Type) where
  | tasks (s : Slice View) : PayloadValue View Snap
  | stats (s : Snap) : PayloadValue View Snap

/-- The payload of a listing handler. -/
abbrev Payload (View Snap : Type) := GoMap (PayloadValue View Snap)

/-! ## Listing handlers

The inspector methods are parameters: `ListXTasks s qname pageSize pageNum`
and `CurrentStats s qname` return the Go result pair and the next store
state. The conversions `toXTasks` and `toQueueStateSnapshot` and the types of
the records, views, stats and snapshot are parameters too. `Encode p` is the
error the JSON encoder returns for `p`. -/

def newListActiveTasksHandlerFunc {σ Rec View Stats Snap : Type}
    (ListActiveTasks : σ → String → Int → Int → (Slice Rec × Option GoError) × σ)
    (CurrentStats : σ → String → (Stats × Option GoError) × σ)
    (toActiveTasks : Slice Rec → Slice View)
    (toQueueStateSnapshot : Stats → Snap)
    (Encode : Payload View Snap → Option GoError)
    (intSize : Nat) (r : Request) (s : σ) : List (Effect (Payload View Snap)) × σ :=
  let qname := r.vars "qname"
  let pageSize := (getPageOptions intSize r).1
  let pageNum := (getPageOptions intSize r).2
  match ListActiveTasks s qname pageSize pageNum with
  | ((_, some err), s1) => ([.httpError err.msg StatusInternalServerError], s1)
  | ((tasks, none), s1) =>
    match CurrentStats s1 qname with
    | ((_, some err), s2) => ([.httpError err.msg StatusInternalServerError], s2)
    | ((stats, none), s2) =>
      let payload : Payload View Snap := GoMap.make
      let payload :=
        if tasks.len = 0 then payload.set "tasks" (.tasks Slice.make0)
        else payload.set "tasks" (.tasks (toActiveTasks tasks))
      let payload := payload.set "stats" (.stats (toQueueStateSnapshot stats))
      match Encode payload with
      | some err => ([.encode payload, .httpError err.msg StatusInternalServerError], s2)
      | none => ([.encode payload], s2)

def newListPendingTasksHandlerFunc {σ Rec View Stats Snap : Type}
    (ListPendingTasks : σ → String → Int → Int → (Slice Rec × Option GoError) × σ)
    (CurrentStats : σ → String → (Stats × Option GoError) × σ)
    (toPendingTasks : Slice Rec → Slice View)
    (toQueueStateSnapshot : Stats → Snap)
    (Encode : Payload View Snap → Option GoError)
    (intSize : Nat) (r : Request) (s : σ) : List (Effect (Payload View Snap)) × σ :=
  let qname := r.vars "qname"
  let pageSize := (getPageOptions intSize r).1
  let pageNum := (getPageOptions intSize r).2
  match ListPendingTasks s qname pageSize pageNum with
  | ((_, some err), s1) => ([.httpError err.msg StatusInternalServerError], s1)
  | ((tasks, none), s1) =>
    match CurrentStats s1 qname with
    | ((_, some err), s2) => ([.httpError err.msg StatusInternalServerError], s2)
    | ((stats, none), s2) =>
      let payload : Payload View Snap := GoMap.make
      let payload :=
        if tasks.len = 0 then payload.set "tasks" (.tasks Slice.make0)
        else payload.set "tasks" (.tasks (toPendingTasks tasks))
      let payload := payload.set "stats" (.stats (toQueueStateSnapshot stats))
      match Encode payload with
      | some err => ([.encode payload, .httpError err.msg StatusInternalServerError], s2)
      | none => ([.encode payload], s2)

def newListScheduledTasksHandlerFunc {σ Rec View Stats Snap : Type}
    (ListScheduledTasks : σ → String → Int → Int → (Slice Rec × Option GoError) × σ)
    (CurrentStats : σ → String → (Stats × Option GoError) × σ)
    (toScheduledTasks : Slice Rec → Slice View)
    (toQueueStateSnapshot : Stats → Snap)
    (Encode : Payload View Snap → Option GoError)
    (intSize : Nat) (r : Request) (s : σ) : List (Effect (Payload View Snap)) × σ :=
  let qname := r.vars "qname"
  let pageSize := (getPageOptions intSize r).1
  let pageNum := (getPageOptions intSize r).2
  match ListScheduledTasks s qname pageSize pageNum with
  | ((_, some err), s1) => ([.httpError err.msg StatusInternalServerError], s1)
  | ((tasks, none), s1) =>
    match CurrentStats s1 qname with
    | ((_, some err), s2) => ([.httpError err.msg StatusInternalServerError], s2)
    | ((stats, none), s2) =>
      let payload : Payload View Snap := GoMap.make
      let payload :=
        if tasks.len = 0 then payload.set "tasks" (.tasks Slice.make0)
        else payload.set "tasks" (.tasks (toScheduledTasks tasks))
      let payload := payload.set "stats" (.stats (toQueueStateSnapshot stats))
      match Encode payload with
      | some err => ([.encode payload, .httpError err.msg StatusInternalServerError], s2)
      | none => ([.encode payload], s2)

def newListRetryTasksHandlerFunc {σ Rec View Stats Snap : Type}
    (ListRetryTasks : σ → String → Int → Int → (Slice Rec × Option GoError) × σ)
    (CurrentStats : σ → String → (Stats × Option GoError) × σ)
    (toRetryTasks : Slice Rec → Slice View)
    (toQueueStateSnapshot : Stats → Snap)
    (Encode : Payload View Snap → Option GoError)
    (intSize : Nat) (r : Request) (s : σ) : List (Effect (Payload View Snap)) × σ :=
  let qname := r.vars "qname"
  let pageSize := (getPageOptions intSize r).1
  let pageNum := (getPageOptions intSize r).2
  match ListRetryTasks s qname pageSize pageNum with
  | ((_, some err), s1) => ([.httpError err.msg StatusInternalServerError], s1)
  | ((tasks, none), s1) =>
    match CurrentStats s1 qname with
    | ((_, some err), s2) => ([.httpError err.msg StatusInternalServerError], s2)
    | ((stats, none), s2) =>
      let payload : Payload View Snap := GoMap.make
      let payload :=
        if tasks.len = 0 then payload.set "tasks" (.tasks Slice.make0)
        else payload.set "tasks" (.tasks (toRetryTasks tasks))
      let payload := payload.set "stats" (.stats (toQueueStateSnapshot stats))
      match Encode payload with
      | some err => ([.encode payload, .httpError err.msg StatusInternalServerError], s2)
      | none => ([.encode payload], s2)

def newListDeadTasksHandlerFunc {σ Rec View Stats Snap : Type}
    (ListDeadTasks : σ → String → Int → Int → (Slice Rec × Option GoError) × σ)
    (CurrentStats : σ → String → (Stats × Option GoError) × σ)
    (toDeadTasks : Slice Rec → Slice View)
    (toQueueStateSnapshot : Stats → Snap)
    (Encode : Payload View Snap → Option GoError)
    (intSize : Nat) (r : Request) (s : σ) : List (Effect (Payload View Snap)) × σ :=
  let qname := r.vars "qname"
  let pageSize := (getPageOptions intSize r).1
  let pageNum := (getPageOptions intSize r).2
  match ListDeadTasks s qname pageSize pageNum with
  | ((_, some err), s1) => ([.httpError err.msg StatusInternalServerError], s1)
  | ((tasks, none), s1) =>
    match CurrentStats s1 qname with
    | ((_, some err), s2) => ([.httpError err.msg StatusInternalServerError], s2)
    | ((stats, none), s2) =>
      let payload : Payload View Snap := GoMap.make
      let payload :=
        if tasks.len = 0 then payload.set "tasks" (.tasks Slice.make0)
        else payload.set "tasks" (.tasks (toDeadTasks tasks))
      let payload := payload.set "stats" (.stats (toQueueStateSnapshot stats))
      match Encode payload with
      | some err => ([.encode payload, .httpError err.msg StatusInternalServerError], s2)
      | none => ([.encode payload], s2)

/-! ## Deleting one task -/

/-- `newDeleteTaskHandlerFunc`: `DeleteTaskByKey s qname key` is the error the
inspector returns and the next store state. -/
def newDeleteTaskHandlerFunc {σ : Type}
    (DeleteTaskByKey : σ → String → String → Option GoError × σ)
    (r : Request) (s : σ) : List (Effect Unit) × σ :=
  let qname := r.vars "qname"
  let key := r.vars "task_key"
  match DeleteTaskByKey s qname key with
  | (some err, s1) => ([.httpError err.msg StatusInternalServerError], s1)
  | (none, s1) => ([.writeHeader StatusNoContent], s1)

/-! ## Deleting a batch of dead tasks -/

/-- The request body used for all batch delete tasks endpoints. -/
structure batchDeleteTasksRequest where
  taskKeys : Slice String
  deriving DecidableEq, Repr

/-- The response of a batch delete: the task keys that were successfully
deleted and the task keys that were not deleted. -/
structure batchDeleteTasksResponse where
  deletedKeys : Slice String
  failedKeys : Slice String
  deriving DecidableEq, Repr

/-- Maximum request body size in bytes. -/
def maxRequestBodySize : Nat := 1000000

/-- `http.MaxBytesReader(w, r, n)`: the reader delivers the first `n` bytes of
`r` and "returns a non-EOF error for a Read beyond the limit",
`http: request body too large`; a body of at most `n` bytes is read as it
is. -/
def MaxBytesReader (r : Reader) (n : Nat) : Reader :=
  if r.data.length ≤ n then r
  else { data := r.data.take n, err := some ⟨"http: request body too large", false⟩ }

/-- The arguments of one `log.Printf` call of the batch loop. -/
structure LogEntry where
  key : String
  err : GoError
  deriving DecidableEq, Repr

/-- The loop `for _, key := range req.taskKeys` of the batch-delete handler,
from the store state, the response and the log lines accumulated so far. -/
def batchDeleteLoop {σ : Type}
    (DeleteTaskByKey : σ → String → String → Option GoError × σ) (qname : String) :
    List String → σ × batchDeleteTasksResponse × List LogEntry →
      σ × batchDeleteTasksResponse × List LogEntry
  | [], st => st
  | key :: keys, (s, resp, logs) =>
    match DeleteTaskByKey s qname key with
    | (some err, s1) =>
      batchDeleteLoop DeleteTaskByKey qname keys
        (s1, { resp with failedKeys := resp.failedKeys.append key }, logs ++ [⟨key, err⟩])
    | (none, s1) =>
      batchDeleteLoop DeleteTaskByKey qname keys
        (s1, { resp with deletedKeys := resp.deletedKeys.append key }, logs)

/-- `newBatchDeleteDeadTasksHandlerFunc`. `Decode body` is what
`dec.Decode(&req)` makes of the body for a decoder with
`DisallowUnknownFields`: the request value and the error it returns.
`Encode resp` is the error the JSON encoder returns. The result is the calls
on the response writer, the log lines and the next store state. -/
def newBatchDeleteDeadTasksHandlerFunc {σ : Type}
    (DeleteTaskByKey : σ → String → String → Option GoError × σ)
    (Decode : Reader → batchDeleteTasksRequest × Option GoError)
    (Encode : batchDeleteTasksResponse → Option GoError)
    (r : Request) (s : σ) :
    List (Effect batchDeleteTasksResponse) × List LogEntry × σ :=
  let body := MaxBytesReader r.body maxRequestBodySize
  match Decode body with
  | (_, some err) => ([.httpError err.msg StatusBadRequest], [], s)
  | (req, none) =>
    let qname := r.vars "qname"
    let resp : batchDeleteTasksResponse := { deletedKeys := .nil, failedKeys := .nil }
    match batchDeleteLoop DeleteTaskByKey qname req.taskKeys.toList (s, resp, []) with
    | (s1, resp, logs) =>
      match Encode resp with
      | some err =>
        ([.encode resp, .httpError err.msg StatusInternalServerError], logs, s1)
      | none => ([.encode resp], logs, s1)

/-! ## `encoding/json` on the two structs of the batch endpoint

The encoder and the decoder of `encoding/json` see a struct through its
exported fields only: a field whose name does not start with an upper-case
letter is ignored, whatever its `json` tag. A nil slice is encoded as `null`,
a non-nil one as an array. -/

/-- A JSON value, as far as the batch response needs it. -/
inductive JSON where
  | null : JSON
  | str (s : String) : JSON
  | arr (elems : List JSON) : JSON
  | obj (members : List (String × JSON)) : JSON
  deriving Repr

/-- A field of a Go struct as the encoder meets it: its Go name, the name in
its `json` tag and the encoding of its value. -/
structure StructField where
  name : String
  jsonName : String
  value : JSON

/-- Whether a Go identifier is exported: it starts with an upper-case
letter. -/
def isExported (name : String) : Bool :=
  match name.data with
  | [] => false
  | c :: _ => c.isUpper

/-- The encoding of a `[]string`. -/
def marshalStrings : Slice String → JSON
  | .nil => .null
  | .mk xs => .arr (xs.map .str)

/-- The encoding of a struct: an object with one member per exported
field. -/
def marshalStruct (fields : List StructField) : JSON :=
  .obj ((fields.filter (fun f => isExported f.name)).map (fun f => (f.jsonName, f.value)))

/-- The fields of `batchDeleteTasksResponse`, as declared:
``deletedKeys []string `json:"deleted_keys"` `` and
``failedKeys []string `json:"failed_keys"` ``. -/
def batchDeleteTasksResponse.fields (resp : batchDeleteTasksResponse) : List StructField :=
  [ { name := "deletedKeys", jsonName := "deleted_keys",
      value := marshalStrings resp.deletedKeys },
    { name := "failedKeys", jsonName := "failed_keys",
      value := marshalStrings resp.failedKeys } ]

/-- What `json.NewEncoder(w).Encode(resp)` writes for a response. -/
def batchDeleteTasksResponse.Marshal (resp : batchDeleteTasksResponse) : JSON :=
  marshalStruct resp.fields

/-- The member of a JSON object with the given name. -/
def JSON.member (j : JSON) (name : String) : Option JSON :=
  match j with
  | .obj members => (members.find? (fun m => m.1 == name)).map Prod.snd
  | _ => none

/-- JSON white space: space, tab, carriage return, line feed. -/
def isSpace (c : Nat) : Bool := c = 32 || c = 9 || c = 13 || c = 10

/-- The bytes that follow the leading white space. -/
def skipSpace : List Nat → List Nat
  | [] => []
  | c :: cs => if isSpace c then skipSpace cs else c :: cs

/-- Whether `dec.Decode(&req)` returns no error when it reads `rd`, for a
`json.Decoder` with `DisallowUnknownFields` and `req` a
`batchDeleteTasksRequest`.

`Decode` "reads the next JSON-encoded value from its input": it scans the
bytes it has been given up to the end of the first value and does not ask
what follows it, and it looks at the error of the reader only when the bytes
delivered so far do not complete a value. The request struct has no exported
field (its only field is ``taskKeys []string `json:"task_keys"` ``), so every
member of an object is an unknown field, and an array, a string, a number or
a boolean is a type mismatch. Hence the call succeeds in two cases:

* the first value is an object without members, `{` white space `}`, which
  ends at its closing brace;
* the first value is `null`, which is stored nowhere; the literal ends at the
  byte that follows it, whatever that byte is, or at the end of the stream
  when that end is `io.EOF`. -/
def decodeAccepts (rd : Reader) : Bool :=
  match skipSpace rd.data with
  | 123 :: rest =>
    match skipSpace rest with
    | 125 :: _ => true
    | _ => false
  | 110 :: 117 :: 108 :: 108 :: rest =>
    match rest with
    | _ :: _ => true
    | [] => rd.err.isNone
  | _ => false

/-- The Go decoder of the batch endpoint: `dec.Decode(&req)` with `req` the
zero request. `failure rd` is the error `Decode` returns when it does not
accept `rd` (a syntax error, `unexpected EOF`, an unknown field, a type
mismatch or the reader's own error). No field of the request is exported,
so `req` is left as it was: `taskKeys` stays nil. -/
def goDecode (failure : Reader → GoError) (rd : Reader) :
    batchDeleteTasksRequest × Option GoError :=
  if decodeAccepts rd then (⟨.nil⟩, none) else (⟨.nil⟩, some (failure rd))

/-! ## Observing the calls made on the store -/

/-- The store `DeleteTaskByKey` instrumented with the list of the calls made
on it: each call appends its arguments. -/
def traced {σ : Type} (DeleteTaskByKey : σ → String → String → Option GoError × σ) :
    σ × List (String × String) → String → String →
      Option GoError × (σ × List (String × String)) :=
  fun st qname key =>
    ((DeleteTaskByKey st.1 qname key).1,
      ((DeleteTaskByKey st.1 qname key).2, st.2 ++ [(qname, key)]))

/-- The errors `DeleteTaskByKey` returns when it is called on the keys in
order from the store state `s`. -/
def callResults {σ : Type}
    (DeleteTaskByKey : σ → String → String → Option GoError × σ) (qname : String) :
    List String → σ → List (Option GoError)
  | [], _ => []
  | key :: keys, s =>
    (DeleteTaskByKey s qname key).1 ::
      callResults DeleteTaskByKey qname keys (DeleteTaskByKey s qname key).2

/-- The keys among `keys` whose call returned no error. -/
def succeededKeys (keys : List String) (res : List (Option GoError)) : List String :=
  ((keys.zip res).filter (fun p => p.2.isNone)).map Prod.fst

/-- The keys among `keys` whose call returned an error. -/
def refusedKeys (keys : List String) (res : List (Option GoError)) : List String :=
  ((keys.zip res).filter (fun p => p.2.isSome)).map Prod.fst

/-! ## Properties of a response -/

/-- The response is a payload handed to the JSON encoder whose `tasks` entry
is the non-nil slice of length 0 and whose `stats` entry is `snap`. -/
def EmptyListing {View Snap : Type} (effects : List (Effect (Payload View Snap)))
    (snap : Snap) : Prop :=
  ∃ payload : Payload View Snap,
    effects.head? = some (.encode payload) ∧
    payload "tasks" = some (.tasks (.mk [])) ∧
    (∀ s : Slice View, payload "tasks" = some (.tasks s) → s.isNil = false ∧ s.len = 0) ∧
    payload "stats" = some (.stats snap)

/-- The failure policy of a listing handler, for the error `listErr` of the
task-list fetch and the error `statsErr` of the stats fetch that follows it:
an error of either fetch is answered by `http.Error` with its message and
status 500 and nothing else, and a payload is handed to the encoder exactly
when both fetches succeed. -/
def FailsAsAUnit {View Snap : Type} (listErr statsErr : Option GoError)
    (effects : List (Effect (Payload View Snap))) : Prop :=
  (∀ e, listErr = some e →
      effects = [.httpError e.msg StatusInternalServerError]) ∧
  (∀ e, listErr = none → statsErr = some e →
      effects = [.httpError e.msg StatusInternalServerError]) ∧
  ((∃ payload, Effect.encode payload ∈ effects) ↔ listErr = none ∧ statsErr = none)

/-! ## Sample stores and requests -/

/-- A store in which a key can be deleted once: the state is the list of the
keys already deleted, and deleting one of them again fails as not found. -/
def deleteOnce : List String → String → String → Option GoError × List String :=
  fun deleted _ key =>
    if key ∈ deleted then (some ⟨"task not found", true⟩, deleted)
    else (none, key :: deleted)

/-- A store in which deleting the key `bad` fails and every other delete
succeeds. -/
def failOn (bad : String) : Unit → String → String → Option GoError × Unit :=
  fun _ _ key => if key = bad then (some ⟨"store failure", false⟩, ()) else (none, ())

/-- A request for the queue `q` with an empty query and an empty body. -/
def sampleRequest : Request :=
  { query := fun _ => [], vars := fun v => if v = "qname" then "q" else "", body := ⟨[], none⟩ }

/-- A request whose `size` is not a number and whose `page` is absent. -/
def malformedRequest : Request :=
  { query := fun k => if k = "size" then ["1O"] else [],
    vars := fun _ => "", body := ⟨[], none⟩ }

/-- A request with `size=-5` and `page=0`. -/
def negativeRequest : Request :=
  { query := fun k => if k = "size" then ["-5"] else if k = "page" then ["0"] else [],
    vars := fun _ => "", body := ⟨[], none⟩ }

/-- A store whose task listing is the nil slice. -/
def noTasks : Unit → String → Int → Int → (Slice Nat × Option GoError) × Unit :=
  fun _ _ _ _ => ((Slice.nil, none), ())

/-- A store whose stats are the number 7. -/
def sampleStats : Unit → String → (Nat × Option GoError) × Unit :=
  fun _ _ => ((7, none), ())

/-- The error the sample decoder reports for a stream it does not accept. -/
def sampleFailure : Reader → GoError :=
  fun rd =>
    match rd.err with
    | some e => e
    | none => ⟨"unexpected EOF", false⟩

/-- A body of 1,000,002 bytes: `{}` followed by 1,000,000 spaces. -/
def oversizedBody : List Nat := 123 :: 125 :: List.replicate 1000000 32

/-- A request for the queue `q` with the body `oversizedBody`. -/
def oversizedRequest : Request :=
  { query := fun _ => [], vars := fun v => if v = "qname" then "q" else "",
    body := ⟨oversizedBody, none⟩ }

/-- A request for the queue `q` whose body is `{}`. -/
def emptyObjectRequest : Request :=
  { query := fun _ => [], vars := fun v => if v = "qname" then "q" else "",
    body := ⟨[123, 125], none⟩ }

/-- The body `{"task_keys":["A"]}`, as bytes. -/
def keyedBody : List Nat :=
  [123, 34, 116, 97, 115, 107, 95, 107, 101, 121, 115, 34, 58, 91, 34, 65, 34, 93, 125]

/-- A request for the queue `q` with the body `keyedBody`: a batch delete of
the key `A`. -/
def keyedRequest : Request :=
  { query := fun _ => [], vars := fun v => if v = "qname" then "q" else "",
    body := ⟨keyedBody, none⟩ }

/-! # Theorems -/

/-! ## The definitions at sample inputs -/

theorem Atoi_samples :
    Atoi 64 "-12" = some (-12) ∧ Atoi 64 "+012" = some 12 ∧
    Atoi 64 "9223372036854775807" = some 9223372036854775807 ∧
    Atoi 64 "9223372036854775808" = none ∧
    Atoi 64 "-9223372036854775808" = some (-9223372036854775808) ∧
    Atoi 32 "2147483648" = none ∧
    Atoi 64 "1_0" = none ∧ Atoi 64 "-" = none ∧ Atoi 64 " 1" = none ∧ Atoi 64 "" = none := by
  decide

theorem getPageOptions_samples :
    getPageOptions 64 sampleRequest = (20, 1) ∧
    getPageOptions 64 malformedRequest = (20, 1) ∧
    getPageOptions 64 negativeRequest = (-5, 0) := by
  decide

theorem batchDeleteLoop_samples :
    (batchDeleteLoop deleteOnce "q" ["A", "A"] ([], ⟨.nil, .nil⟩, [])).2.1
      = ⟨.mk ["A"], .mk ["A"]⟩ ∧
    (batchDeleteLoop (failOn "B") "q" ["A", "B", "C"] ((), ⟨.nil, .nil⟩, [])).2.1
      = ⟨.mk ["A", "C"], .mk ["B"]⟩ ∧
    (batchDeleteLoop (failOn "B") "q" [] ((), ⟨.nil, .nil⟩, [])).2.1 = ⟨.nil, .nil⟩ := by
  decide

theorem decodeAccepts_samples :
    decodeAccepts ⟨[123, 125], none⟩ = true ∧
    decodeAccepts ⟨[32, 123, 10, 125, 120], none⟩ = true ∧
    decodeAccepts ⟨[110, 117, 108, 108], none⟩ = true ∧
    decodeAccepts ⟨[123, 34, 97, 34, 58, 49, 125], none⟩ = false ∧
    decodeAccepts ⟨keyedBody, none⟩ = false ∧
    keyedBody = "\x7b\"task_keys\":[\"A\"]\x7d".data.map Char.toNat ∧
    decodeAccepts ⟨[91, 93], none⟩ = false ∧
    decodeAccepts ⟨[], none⟩ = false ∧
    decodeAccepts ⟨[123], some ⟨"http: request body too large", false⟩⟩ = false := by
  decide

/-! ## Page options -/

theorem digitVal_digitChar (d : Nat) (h : d < 10) : digitVal (Nat.digitChar d) = some d := by
  interval_cases d <;> decide

theorem parseDigits_append (xs ys : List Char) (acc : Nat) :
    parseDigits (xs ++ ys) acc = (parseDigits xs acc).bind (parseDigits ys) := by
  induction xs generalizing acc with
  | nil => simp [parseDigits]
  | cons c cs ih =>
    simp only [List.cons_append, parseDigits]
    cases digitVal c with
    | none => simp
    | some d => simp [ih]

theorem toDigitsCore_append (f n : Nat) (ds : List Char) :
    Nat.toDigitsCore 10 f n ds = Nat.toDigitsCore 10 f n [] ++ ds := by
  induction f generalizing n ds with
  | zero => simp [Nat.toDigitsCore]
  | succ f ih =>
    simp only [Nat.toDigitsCore]
    split
    · simp
    · rw [ih, ih (n / 10) [Nat.digitChar (n % 10)]]
      simp

theorem parseDigits_toDigitsCore (f n : Nat) (h : n < f) :
    parseDigits (Nat.toDigitsCore 10 f n []) 0 = some n := by
  induction f generalizing n with
  | zero => omega
  | succ f ih =>
    simp only [Nat.toDigitsCore]
    split
    · rename_i h0
      have hn : n % 10 = n := by omega
      have hlt : n < 10 := by omega
      simp [parseDigits, hn, digitVal_digitChar n hlt]
    · rename_i h0
      rw [toDigitsCore_append, parseDigits_append, ih (n / 10) (by omega)]
      simp [parseDigits, digitVal_digitChar (n % 10) (Nat.mod_lt _ (by norm_num))]
      omega

/-- Reading the decimal digits of `n` gives `n` back. -/
theorem parseDigits_toDigits (n : Nat) : parseDigits (Nat.toDigits 10 n) 0 = some n :=
  parseDigits_toDigitsCore (n + 1) n (Nat.lt_succ_self n)

theorem toDigits_ne_nil (n : Nat) : Nat.toDigits 10 n ≠ [] := by
  unfold Nat.toDigits
  simp only [Nat.toDigitsCore]
  split
  · simp
  · rw [toDigitsCore_append]
    simp

/-- A string that starts with a digit does not start with a sign. -/
theorem not_sign_of_parseDigits (c : Char) (cs : List Char) (m : Nat)
    (h : parseDigits (c :: cs) 0 = some m) : c ≠ '+' ∧ c ≠ '-' := by
  simp only [parseDigits] at h
  cases hd : digitVal c with
  | none => simp [hd] at h
  | some d =>
    simp only [digitVal] at hd
    split at hd
    · rename_i hc
      constructor
      · intro hc2
        subst hc2
        revert hc
        decide
      · intro hc2
        subst hc2
        revert hc
        decide
    · simp at hd

/-- `Atoi` on the decimal text of a natural number. -/
theorem Atoi_toString_nat (intSize m : Nat) :
    Atoi intSize (toString m)
      = if m ≥ 2 ^ (intSize - 1) then none else some (m : Int) := by
  have hdata : (toString m).data = Nat.toDigits 10 m := rfl
  have hp := parseDigits_toDigits m
  have hne := toDigits_ne_nil m
  unfold Atoi
  rw [hdata]
  cases hds : Nat.toDigits 10 m with
  | nil => exact absurd hds hne
  | cons c cs =>
    rw [hds] at hp
    obtain ⟨h1, h2⟩ := not_sign_of_parseDigits c cs m hp
    simp [h1, h2, hp]

/-- `Atoi` on the decimal text of a negative number. -/
theorem Atoi_toString_negSucc (intSize m : Nat) :
    Atoi intSize (toString (Int.negSucc m))
      = if m + 1 > 2 ^ (intSize - 1) then none else some (Int.negSucc m) := by
  have hdata : (toString (Int.negSucc m)).data = '-' :: Nat.toDigits 10 (m + 1) := rfl
  have hp := parseDigits_toDigits (m + 1)
  have hne := toDigits_ne_nil (m + 1)
  unfold Atoi
  rw [hdata]
  cases hds : Nat.toDigits 10 (m + 1) with
  | nil => exact absurd hds hne
  | cons c cs =>
    rw [hds] at hp
    simp only [beq_self_eq_true, Bool.or_true, if_true, hp, Bool.not_true, Bool.false_and,
      Bool.false_eq_true, if_false, Bool.true_and, decide_eq_true_eq]
    by_cases hm : m + 1 > 2 ^ (intSize - 1)
    · simp [hm]
    · simp only [hm, if_false]
      rfl

/-- `Atoi` accepts the decimal text of `n` exactly when `n` fits a signed
integer of `intSize` bits, and then returns `n`. -/
theorem Atoi_toString (intSize : Nat) (n : Int) :
    Atoi intSize (toString n)
      = if -(2 : Int) ^ (intSize - 1) ≤ n ∧ n < (2 : Int) ^ (intSize - 1) then some n
        else none := by
  have hcast : ((2 ^ (intSize - 1) : Nat) : Int) = (2 : Int) ^ (intSize - 1) := by
    push_cast
    rfl
  rw [← hcast]
  cases n with
  | ofNat m =>
    have key : toString (Int.ofNat m) = toString m := rfl
    rw [key, Atoi_toString_nat]
    simp only [Int.ofNat_eq_coe]
    by_cases hm : m ≥ 2 ^ (intSize - 1)
    · have h1 : ¬ ((m : Int) < ((2 ^ (intSize - 1) : Nat) : Int)) := by omega
      simp only [hm, if_true, h1, and_false, if_false]
    · have h1 : (m : Int) < ((2 ^ (intSize - 1) : Nat) : Int) := by omega
      have h2 : -((2 ^ (intSize - 1) : Nat) : Int) ≤ (m : Int) := by omega
      simp only [hm, if_false, h1, h2, and_self, if_true]
  | negSucc m =>
    rw [Atoi_toString_negSucc]
    have hneg : Int.negSucc m = -((m : Int) + 1) := Int.negSucc_eq m
    by_cases hm : m + 1 > 2 ^ (intSize - 1)
    · have h1 : ¬ (-((2 ^ (intSize - 1) : Nat) : Int) ≤ Int.negSucc m) := by
        rw [hneg]
        omega
      simp only [hm, if_true, h1, false_and, if_false]
    · have h1 : -((2 ^ (intSize - 1) : Nat) : Int) ≤ Int.negSucc m := by
        rw [hneg]
        omega
      have h2 : Int.negSucc m < ((2 ^ (intSize - 1) : Nat) : Int) := by
        rw [hneg]
        omega
      simp only [hm, if_false, h1, h2, and_self, if_true]

theorem toString_int_ne_empty (n : Int) : toString n ≠ "" := by
  intro h
  have hd : (toString n).data = [] := by rw [h]
  cases n with
  | ofNat m => exact toDigits_ne_nil m hd
  | negSucc m =>
    have hdata : (toString (Int.negSucc m)).data = '-' :: Nat.toDigits 10 (m + 1) := rfl
    rw [hdata] at hd
    cases hd

/-- C2: `getPageOptions` is total (it has no error result), and for each
parameter separately, whatever the other one is: a `size` that is missing,
empty or not accepted by `strconv.Atoi` gives the page size 20, and such a
`page` gives the page number 1. The decimal text of an integer that does not
fit an `int` is such a value. -/
theorem getPageOptions_defaults (intSize : Nat) (r : Request) :
    ((r.query "size" = [] ∨ r.query.Get "size" = "" ∨
        Atoi intSize (r.query.Get "size") = none) → (getPageOptions intSize r).1 = 20) ∧
    ((r.query "page" = [] ∨ r.query.Get "page" = "" ∨
        Atoi intSize (r.query.Get "page") = none) → (getPageOptions intSize r).2 = 1) ∧
    (∀ n : Int, ¬ (-(2 : Int) ^ (intSize - 1) ≤ n ∧ n < (2 : Int) ^ (intSize - 1)) →
      (r.query.Get "size" = toString n → (getPageOptions intSize r).1 = 20) ∧
      (r.query.Get "page" = toString n → (getPageOptions intSize r).2 = 1)) ∧
    ((r.query "size" = [] ∨ r.query.Get "size" = "" ∨
        Atoi intSize (r.query.Get "size") = none) →
      (r.query "page" = [] ∨ r.query.Get "page" = "" ∨
        Atoi intSize (r.query.Get "page") = none) →
      getPageOptions intSize r = (20, 1)) := by
  have hsize : (r.query.Get "size" = "" ∨ Atoi intSize (r.query.Get "size") = none) →
      (getPageOptions intSize r).1 = 20 := by
    intro h
    simp only [getPageOptions]
    rcases h with h | h
    · simp [h]
    · simp [h]
  have hpage : (r.query.Get "page" = "" ∨ Atoi intSize (r.query.Get "page") = none) →
      (getPageOptions intSize r).2 = 1 := by
    intro h
    simp only [getPageOptions]
    rcases h with h | h
    · simp [h]
    · simp [h]
  have hsize2 : (r.query "size" = [] ∨ r.query.Get "size" = "" ∨
      Atoi intSize (r.query.Get "size") = none) → (getPageOptions intSize r).1 = 20 := by
    rintro (h | h)
    · exact hsize (Or.inl (by simp [Values.Get, h]))
    · exact hsize h
  have hpage2 : (r.query "page" = [] ∨ r.query.Get "page" = "" ∨
      Atoi intSize (r.query.Get "page") = none) → (getPageOptions intSize r).2 = 1 := by
    rintro (h | h)
    · exact hpage (Or.inl (by simp [Values.Get, h]))
    · exact hpage h
  refine ⟨hsize2, hpage2, ?_, ?_⟩
  swap
  · intro h1 h2
    exact Prod.ext (hsize2 h1) (hpage2 h2)
  · intro n hn
    have hA : Atoi intSize (toString n) = none := by
      rw [Atoi_toString, if_neg hn]
    constructor
    · intro h
      exact hsize (Or.inr (by rw [h, hA]))
    · intro h
      exact hpage (Or.inr (by rw [h, hA]))

/-- C2 at a request with `size=1O` and no `page`. -/
theorem getPageOptions_defaults_witness :
    Atoi 64 (malformedRequest.query.Get "size") = none ∧
    malformedRequest.query "page" = [] ∧
    (getPageOptions 64 malformedRequest).1 = 20 ∧
    (getPageOptions 64 malformedRequest).2 = 1 ∧
    getPageOptions 64 malformedRequest = (20, 1) :=
  ⟨by decide, by decide,
    (getPageOptions_defaults 64 malformedRequest).1 (Or.inr (Or.inr (by decide))),
    (getPageOptions_defaults 64 malformedRequest).2.1 (Or.inl (by decide)),
    (getPageOptions_defaults 64 malformedRequest).2.2.2 (Or.inr (Or.inr (by decide)))
      (Or.inl (by decide))⟩

/-- C3: for every integer `n` that fits an `int` of `intSize` bits, zero and
the negative ones included, a `size` equal to the decimal text of `n` gives
the page size `n`, and a `page` equal to it gives the page number `n`: the
value is neither clamped nor replaced by the default. -/
theorem getPageOptions_passes_through (intSize : Nat) (r : Request) (n : Int)
    (hlo : -(2 : Int) ^ (intSize - 1) ≤ n) (hhi : n < (2 : Int) ^ (intSize - 1)) :
    (r.query.Get "size" = toString n → (getPageOptions intSize r).1 = n) ∧
    (r.query.Get "page" = toString n → (getPageOptions intSize r).2 = n) := by
  have hA : Atoi intSize (toString n) = some n := by
    rw [Atoi_toString, if_pos ⟨hlo, hhi⟩]
  have hne := toString_int_ne_empty n
  constructor
  · intro h
    simp only [getPageOptions, h, hA, ne_eq, hne, not_false_eq_true, if_true]
  · intro h
    simp only [getPageOptions, h, hA, ne_eq, hne, not_false_eq_true, if_true]

/-- C3 at `size=-5`, `page=0` on a 64-bit platform. -/
theorem getPageOptions_passes_through_witness :
    (-(2 : Int) ^ (64 - 1) ≤ -5 ∧ (-5 : Int) < (2 : Int) ^ (64 - 1)) ∧
    (-(2 : Int) ^ (64 - 1) ≤ 0 ∧ (0 : Int) < (2 : Int) ^ (64 - 1)) ∧
    negativeRequest.query.Get "size" = toString (-5 : Int) ∧
    negativeRequest.query.Get "page" = toString (0 : Int) ∧
    (getPageOptions 64 negativeRequest).1 = -5 ∧
    (getPageOptions 64 negativeRequest).2 = 0 :=
  ⟨by decide, by decide, by decide, by decide,
    (getPageOptions_passes_through 64 negativeRequest (-5) (by decide) (by decide)).1
      (by decide),
    (getPageOptions_passes_through 64 negativeRequest 0 (by decide) (by decide)).2
      (by decide)⟩

/-! ## The batch-delete loop -/

section BatchLoop

variable {σ : Type}

theorem callResults_length (del : σ → String → String → Option GoError × σ) (q : String)
    (keys : List String) (s : σ) : (callResults del q keys s).length = keys.length := by
  induction keys generalizing s with
  | nil => rfl
  | cons k ks ih => simp [callResults, ih]

theorem Slice.toList_nil {α : Type} : (Slice.nil : Slice α).toList = [] := rfl

theorem Slice.toList_append {α : Type} (xs : Slice α) (x : α) :
    (xs.append x).toList = xs.toList ++ [x] := rfl

/-- The loop adds to each list of the response, in input order, the keys of
its outcome. -/
theorem batchDeleteLoop_lists (del : σ → String → String → Option GoError × σ) (q : String)
    (keys : List String) (s : σ) (resp : batchDeleteTasksResponse) (logs : List LogEntry) :
    (batchDeleteLoop del q keys (s, resp, logs)).2.1.deletedKeys.toList
        = resp.deletedKeys.toList ++ succeededKeys keys (callResults del q keys s) ∧
    (batchDeleteLoop del q keys (s, resp, logs)).2.1.failedKeys.toList
        = resp.failedKeys.toList ++ refusedKeys keys (callResults del q keys s) := by
  induction keys generalizing s resp logs with
  | nil => simp [batchDeleteLoop, callResults, succeededKeys, refusedKeys]
  | cons k ks ih =>
    rcases h : del s q k with ⟨e, s1⟩
    cases e with
    | none =>
      have := ih s1 { resp with deletedKeys := resp.deletedKeys.append k } logs
      simp only [batchDeleteLoop, h, callResults, succeededKeys, refusedKeys] at this ⊢
      simp [this.1, this.2, Slice.toList_append]
    | some err =>
      have := ih s1 { resp with failedKeys := resp.failedKeys.append k }
        (logs ++ [⟨k, err⟩])
      simp only [batchDeleteLoop, h, callResults, succeededKeys, refusedKeys] at this ⊢
      simp [this.1, this.2, Slice.toList_append]

theorem succeeded_refused_perm (keys : List String) (res : List (Option GoError))
    (h : res.length = keys.length) :
    (succeededKeys keys res ++ refusedKeys keys res).Perm keys := by
  have hp := List.filter_append_perm (fun p : String × Option GoError => p.2.isNone)
    (keys.zip res)
  have hm := hp.map Prod.fst
  rw [List.map_append, List.map_fst_zip _ _ (le_of_eq h.symm)] at hm
  have hfun : (fun x : String × Option GoError => !x.2.isNone)
      = (fun p : String × Option GoError => p.2.isSome) := by
    funext x
    cases x.2 <;> rfl
  rw [hfun] at hm
  exact hm

/-- The loop run on the instrumented store: the store part and the response
are those of the plain run, and the call list grows by one entry per key. -/
theorem batchDeleteLoop_traced (del : σ → String → String → Option GoError × σ) (q : String)
    (keys : List String) (s : σ) (calls : List (String × String))
    (resp : batchDeleteTasksResponse) (logs : List LogEntry) :
    batchDeleteLoop (traced del) q keys ((s, calls), resp, logs)
      = (((batchDeleteLoop del q keys (s, resp, logs)).1,
            calls ++ keys.map (fun k => (q, k))),
          (batchDeleteLoop del q keys (s, resp, logs)).2) := by
  induction keys generalizing s calls resp logs with
  | nil => simp [batchDeleteLoop]
  | cons k ks ih =>
    rcases h : del s q k with ⟨e, s1⟩
    cases e with
    | none => simp [batchDeleteLoop, traced, h, ih]
    | some err => simp [batchDeleteLoop, traced, h, ih]

/-- C10: for every list of keys and every store, the loop leaves in
`deletedKeys` the input keys whose `DeleteTaskByKey` call succeeded and in
`failedKeys` those whose call failed, each in input order; the two lists
together are a permutation of the input and their lengths add up to its
length. -/
theorem batchDeleteLoop_partition (del : σ → String → String → Option GoError × σ)
    (q : String) (keys : List String) (s : σ) :
    (batchDeleteLoop del q keys (s, ⟨.nil, .nil⟩, [])).2.1.deletedKeys.toList
        = succeededKeys keys (callResults del q keys s) ∧
    (batchDeleteLoop del q keys (s, ⟨.nil, .nil⟩, [])).2.1.failedKeys.toList
        = refusedKeys keys (callResults del q keys s) ∧
    ((batchDeleteLoop del q keys (s, ⟨.nil, .nil⟩, [])).2.1.deletedKeys.toList ++
      (batchDeleteLoop del q keys (s, ⟨.nil, .nil⟩, [])).2.1.failedKeys.toList).Perm keys ∧
    (batchDeleteLoop del q keys (s, ⟨.nil, .nil⟩, [])).2.1.deletedKeys.len +
      (batchDeleteLoop del q keys (s, ⟨.nil, .nil⟩, [])).2.1.failedKeys.len = keys.length := by
  have h := batchDeleteLoop_lists del q keys s ⟨.nil, .nil⟩ []
  have hp := succeeded_refused_perm keys (callResults del q keys s)
    (callResults_length del q keys s)
  simp only [Slice.toList_nil, List.nil_append] at h
  refine ⟨h.1, h.2, ?_, ?_⟩
  · rw [h.1, h.2]
    exact hp
  · have hl := hp.length_eq
    rw [List.length_append] at hl
    simp only [Slice.len, h.1, h.2]
    exact hl

end BatchLoop

/-! ## The listing handlers -/

section Listing

variable {σ Rec View Stats Snap : Type}

theorem GoMap.set_same {V : Type} (m : GoMap V) (key : String) (v : V) :
    (m.set key v) key = some v := by
  simp [GoMap.set]

theorem GoMap.set_other {V : Type} (m : GoMap V) (key k : String) (v : V) (h : k ≠ key) :
    (m.set key v) k = m k := by
  simp [GoMap.set, h]

theorem emptyListing_of_payload (stats : Stats) (toSnap : Stats → Snap)
    (rest : List (Effect (Payload View Snap))) :
    EmptyListing
      (Effect.encode (((GoMap.make : Payload View Snap).set "tasks"
          (.tasks Slice.make0)).set "stats" (.stats (toSnap stats))) :: rest)
      (toSnap stats) := by
  refine ⟨_, rfl, ?_, ?_, ?_⟩
  · rw [GoMap.set_other _ _ _ _ (by decide), GoMap.set_same]
    rfl
  · intro s hs
    rw [GoMap.set_other _ _ _ _ (by decide), GoMap.set_same] at hs
    cases hs
    exact ⟨rfl, rfl⟩
  · rw [GoMap.set_same]

theorem listActive_empty
    (ListActiveTasks : σ → String → Int → Int → (Slice Rec × Option GoError) × σ)
    (CurrentStats : σ → String → (Stats × Option GoError) × σ)
    (toActiveTasks : Slice Rec → Slice View) (toQueueStateSnapshot : Stats → Snap)
    (Encode : Payload View Snap → Option GoError) (intSize : Nat) (r : Request) (s s1 s2 : σ)
    (tasks : Slice Rec) (stats : Stats)
    (hlist : ListActiveTasks s (r.vars "qname") (getPageOptions intSize r).1
        (getPageOptions intSize r).2 = ((tasks, none), s1))
    (hlen : tasks.len = 0)
    (hstats : CurrentStats s1 (r.vars "qname") = ((stats, none), s2)) :
    EmptyListing
      (newListActiveTasksHandlerFunc ListActiveTasks CurrentStats toActiveTasks
        toQueueStateSnapshot Encode intSize r s).1
      (toQueueStateSnapshot stats) := by
  simp only [newListActiveTasksHandlerFunc, hlist, hstats, hlen, if_true]
  cases Encode (((GoMap.make : Payload View Snap).set "tasks"
      (.tasks Slice.make0)).set "stats" (.stats (toQueueStateSnapshot stats)))
  · exact emptyListing_of_payload stats toQueueStateSnapshot _
  · exact emptyListing_of_payload stats toQueueStateSnapshot _

theorem listActive_failure
    (ListActiveTasks : σ → String → Int → Int → (Slice Rec × Option GoError) × σ)
    (CurrentStats : σ → String → (Stats × Option GoError) × σ)
    (toActiveTasks : Slice Rec → Slice View) (toQueueStateSnapshot : Stats → Snap)
    (Encode : Payload View Snap → Option GoError) (intSize : Nat) (r : Request) (s : σ) :
    FailsAsAUnit
      (ListActiveTasks s (r.vars "qname") (getPageOptions intSize r).1
        (getPageOptions intSize r).2).1.2
      (CurrentStats
        (ListActiveTasks s (r.vars "qname") (getPageOptions intSize r).1
          (getPageOptions intSize r).2).2 (r.vars "qname")).1.2
      (newListActiveTasksHandlerFunc ListActiveTasks CurrentStats toActiveTasks
        toQueueStateSnapshot Encode intSize r s).1 := by
  unfold newListActiveTasksHandlerFunc FailsAsAUnit
  rcases hL : ListActiveTasks s (r.vars "qname") (getPageOptions intSize r).1
    (getPageOptions intSize r).2 with ⟨⟨tasks, e1⟩, s1⟩
  cases e1 with
  | some e => simp [hL]
  | none =>
    rcases hS : CurrentStats s1 (r.vars "qname") with ⟨⟨stats, e2⟩, s2⟩
    cases e2 with
    | some e => simp [hL, hS]
    | none =>
      simp only [hL, hS]
      split <;> simp

theorem listPending_empty
    (ListPendingTasks : σ → String → Int → Int → (Slice Rec × Option GoError) × σ)
    (CurrentStats : σ → String → (Stats × Option GoError) × σ)
    (toPendingTasks : Slice Rec → Slice View) (toQueueStateSnapshot : Stats → Snap)
    (Encode : Payload View Snap → Option GoError) (intSize : Nat) (r : Request) (s s1 s2 : σ)
    (tasks : Slice Rec) (stats : Stats)
    (hlist : ListPendingTasks s (r.vars "qname") (getPageOptions intSize r).1
        (getPageOptions intSize r).2 = ((tasks, none), s1))
    (hlen : tasks.len = 0)
    (hstats : CurrentStats s1 (r.vars "qname") = ((stats, none), s2)) :
    EmptyListing
      (newListPendingTasksHandlerFunc ListPendingTasks CurrentStats toPendingTasks
        toQueueStateSnapshot Encode intSize r s).1
      (toQueueStateSnapshot stats) := by
  simp only [newListPendingTasksHandlerFunc, hlist, hstats, hlen, if_true]
  cases Encode (((GoMap.make : Payload View Snap).set "tasks"
      (.tasks Slice.make0)).set "stats" (.stats (toQueueStateSnapshot stats)))
  · exact emptyListing_of_payload stats toQueueStateSnapshot _
  · exact emptyListing_of_payload stats toQueueStateSnapshot _

theorem listPending_failure
    (ListPendingTasks : σ → String → Int → Int → (Slice Rec × Option GoError) × σ)
    (CurrentStats : σ → String → (Stats × Option GoError) × σ)
    (toPendingTasks : Slice Rec → Slice View) (toQueueStateSnapshot : Stats → Snap)
    (Encode : Payload View Snap → Option GoError) (intSize : Nat) (r : Request) (s : σ) :
    FailsAsAUnit
      (ListPendingTasks s (r.vars "qname") (getPageOptions intSize r).1
        (getPageOptions intSize r).2).1.2
      (CurrentStats
        (ListPendingTasks s (r.vars "qname") (getPageOptions intSize r).1
          (getPageOptions intSize r).2).2 (r.vars "qname")).1.2
      (newListPendingTasksHandlerFunc ListPendingTasks CurrentStats toPendingTasks
        toQueueStateSnapshot Encode intSize r s).1 := by
  unfold newListPendingTasksHandlerFunc FailsAsAUnit
  rcases hL : ListPendingTasks s (r.vars "qname") (getPageOptions intSize r).1
    (getPageOptions intSize r).2 with ⟨⟨tasks, e1⟩, s1⟩
  cases e1 with
  | some e => simp [hL]
  | none =>
    rcases hS : CurrentStats s1 (r.vars "qname") with ⟨⟨stats, e2⟩, s2⟩
    cases e2 with
    | some e => simp [hL, hS]
    | none =>
      simp only [hL, hS]
      split <;> simp

theorem listScheduled_empty
    (ListScheduledTasks : σ → String → Int → Int → (Slice Rec × Option GoError) × σ)
    (CurrentStats : σ → String → (Stats × Option GoError) × σ)
    (toScheduledTasks : Slice Rec → Slice View) (toQueueStateSnapshot : Stats → Snap)
    (Encode : Payload View Snap → Option GoError) (intSize : Nat) (r : Request) (s s1 s2 : σ)
    (tasks : Slice Rec) (stats : Stats)
    (hlist : ListScheduledTasks s (r.vars "qname") (getPageOptions intSize r).1
        (getPageOptions intSize r).2 = ((tasks, none), s1))
    (hlen : tasks.len = 0)
    (hstats : CurrentStats s1 (r.vars "qname") = ((stats, none), s2)) :
    EmptyListing
      (newListScheduledTasksHandlerFunc ListScheduledTasks CurrentStats toScheduledTasks
        toQueueStateSnapshot Encode intSize r s).1
      (toQueueStateSnapshot stats) := by
  simp only [newListScheduledTasksHandlerFunc, hlist, hstats, hlen, if_true]
  cases Encode (((GoMap.make : Payload View Snap).set "tasks"
      (.tasks Slice.make0)).set "stats" (.stats (toQueueStateSnapshot stats)))
  · exact emptyListing_of_payload stats toQueueStateSnapshot _
  · exact emptyListing_of_payload stats toQueueStateSnapshot _

theorem listScheduled_failure
    (ListScheduledTasks : σ → String → Int → Int → (Slice Rec × Option GoError) × σ)
    (CurrentStats : σ → String → (Stats × Option GoError) × σ)
    (toScheduledTasks : Slice Rec → Slice View) (toQueueStateSnapshot : Stats → Snap)
    (Encode : Payload View Snap → Option GoError) (intSize : Nat) (r : Request) (s : σ) :
    FailsAsAUnit
      (ListScheduledTasks s (r.vars "qname") (getPageOptions intSize r).1
        (getPageOptions intSize r).2).1.2
      (CurrentStats
        (ListScheduledTasks s (r.vars "qname") (getPageOptions intSize r).1
          (getPageOptions intSize r).2).2 (r.vars "qname")).1.2
      (newListScheduledTasksHandlerFunc ListScheduledTasks CurrentStats toScheduledTasks
        toQueueStateSnapshot Encode intSize r s).1 := by
  unfold newListScheduledTasksHandlerFunc FailsAsAUnit
  rcases hL : ListScheduledTasks s (r.vars "qname") (getPageOptions intSize r).1
    (getPageOptions intSize r).2 with ⟨⟨tasks, e1⟩, s1⟩
  cases e1 with
  | some e => simp [hL]
  | none =>
    rcases hS : CurrentStats s1 (r.vars "qname") with ⟨⟨stats, e2⟩, s2⟩
    cases e2 with
    | some e => simp [hL, hS]
    | none =>
      simp only [hL, hS]
      split <;> simp

theorem listRetry_empty
    (ListRetryTasks : σ → String → Int → Int → (Slice Rec × Option GoError) × σ)
    (CurrentStats : σ → String → (Stats × Option GoError) × σ)
    (toRetryTasks : Slice Rec → Slice View) (toQueueStateSnapshot : Stats → Snap)
    (Encode : Payload View Snap → Option GoError) (intSize : Nat) (r : Request) (s s1 s2 : σ)
    (tasks : Slice Rec) (stats : Stats)
    (hlist : ListRetryTasks s (r.vars "qname") (getPageOptions intSize r).1
        (getPageOptions intSize r).2 = ((tasks, none), s1))
    (hlen : tasks.len = 0)
    (hstats : CurrentStats s1 (r.vars "qname") = ((stats, none), s2)) :
    EmptyListing
      (newListRetryTasksHandlerFunc ListRetryTasks CurrentStats toRetryTasks
        toQueueStateSnapshot Encode intSize r s).1
      (toQueueStateSnapshot stats) := by
  simp only [newListRetryTasksHandlerFunc, hlist, hstats, hlen, if_true]
  cases Encode (((GoMap.make : Payload View Snap).set "tasks"
      (.tasks Slice.make0)).set "stats" (.stats (toQueueStateSnapshot stats)))
  · exact emptyListing_of_payload stats toQueueStateSnapshot _
  · exact emptyListing_of_payload stats toQueueStateSnapshot _

theorem listRetry_failure
    (ListRetryTasks : σ → String → Int → Int → (Slice Rec × Option GoError) × σ)
    (CurrentStats : σ → String → (Stats × Option GoError) × σ)
    (toRetryTasks : Slice Rec → Slice View) (toQueueStateSnapshot : Stats → Snap)
    (Encode : Payload View Snap → Option GoError) (intSize : Nat) (r : Request) (s : σ) :
    FailsAsAUnit
      (ListRetryTasks s (r.vars "qname") (getPageOptions intSize r).1
        (getPageOptions intSize r).2).1.2
      (CurrentStats
        (ListRetryTasks s (r.vars "qname") (getPageOptions intSize r).1
          (getPageOptions intSize r).2).2 (r.vars "qname")).1.2
      (newListRetryTasksHandlerFunc ListRetryTasks CurrentStats toRetryTasks
        toQueueStateSnapshot Encode intSize r s).1 := by
  unfold newListRetryTasksHandlerFunc FailsAsAUnit
  rcases hL : ListRetryTasks s (r.vars "qname") (getPageOptions intSize r).1
    (getPageOptions intSize r).2 with ⟨⟨tasks, e1⟩, s1⟩
  cases e1 with
  | some e => simp [hL]
  | none =>
    rcases hS : CurrentStats s1 (r.vars "qname") with ⟨⟨stats, e2⟩, s2⟩
    cases e2 with
    | some e => simp [hL, hS]
    | none =>
      simp only [hL, hS]
      split <;> simp

theorem listDead_empty
    (ListDeadTasks : σ → String → Int → Int → (Slice Rec × Option GoError) × σ)
    (CurrentStats : σ → String → (Stats × Option GoError) × σ)
    (toDeadTasks : Slice Rec → Slice View) (toQueueStateSnapshot : Stats → Snap)
    (Encode : Payload View Snap → Option GoError) (intSize : Nat) (r : Request) (s s1 s2 : σ)
    (tasks : Slice Rec) (stats : Stats)
    (hlist : ListDeadTasks s (r.vars "qname") (getPageOptions intSize r).1
        (getPageOptions intSize r).2 = ((tasks, none), s1))
    (hlen : tasks.len = 0)
    (hstats : CurrentStats s1 (r.vars "qname") = ((stats, none), s2)) :
    EmptyListing
      (newListDeadTasksHandlerFunc ListDeadTasks CurrentStats toDeadTasks
        toQueueStateSnapshot Encode intSize r s).1
      (toQueueStateSnapshot stats) := by
  simp only [newListDeadTasksHandlerFunc, hlist, hstats, hlen, if_true]
  cases Encode (((GoMap.make : Payload View Snap).set "tasks"
      (.tasks Slice.make0)).set "stats" (.stats (toQueueStateSnapshot stats)))
  · exact emptyListing_of_payload stats toQueueStateSnapshot _
  · exact emptyListing_of_payload stats toQueueStateSnapshot _

theorem listDead_failure
    (ListDeadTasks : σ → String → Int → Int → (Slice Rec × Option GoError) × σ)
    (CurrentStats : σ → String → (Stats × Option GoError) × σ)
    (toDeadTasks : Slice Rec → Slice View) (toQueueStateSnapshot : Stats → Snap)
    (Encode : Payload View Snap → Option GoError) (intSize : Nat) (r : Request) (s : σ) :
    FailsAsAUnit
      (ListDeadTasks s (r.vars "qname") (getPageOptions intSize r).1
        (getPageOptions intSize r).2).1.2
      (CurrentStats
        (ListDeadTasks s (r.vars "qname") (getPageOptions intSize r).1
          (getPageOptions intSize r).2).2 (r.vars "qname")).1.2
      (newListDeadTasksHandlerFunc ListDeadTasks CurrentStats toDeadTasks
        toQueueStateSnapshot Encode intSize r s).1 := by
  unfold newListDeadTasksHandlerFunc FailsAsAUnit
  rcases hL : ListDeadTasks s (r.vars "qname") (getPageOptions intSize r).1
    (getPageOptions intSize r).2 with ⟨⟨tasks, e1⟩, s1⟩
  cases e1 with
  | some e => simp [hL]
  | none =>
    rcases hS : CurrentStats s1 (r.vars "qname") with ⟨⟨stats, e2⟩, s2⟩
    cases e2 with
    | some e => simp [hL, hS]
    | none =>
      simp only [hL, hS]
      split <;> simp

/-- C5: for each of the five listing handlers (active, pending, scheduled,
retry, dead), when the store returns a task list of length 0 (nil or empty)
without error and the stats fetch succeeds, the handler hands the encoder a
payload whose `tasks` entry is present and is the non-nil slice of length 0,
and whose `stats` entry is the snapshot of the stats. -/
theorem listing_empty_tasks_explicit
    (listTasks : σ → String → Int → Int → (Slice Rec × Option GoError) × σ)
    (CurrentStats : σ → String → (Stats × Option GoError) × σ)
    (toTasks : Slice Rec → Slice View) (toQueueStateSnapshot : Stats → Snap)
    (Encode : Payload View Snap → Option GoError) (intSize : Nat) (r : Request) (s s1 s2 : σ)
    (tasks : Slice Rec) (stats : Stats)
    (hlist : listTasks s (r.vars "qname") (getPageOptions intSize r).1
        (getPageOptions intSize r).2 = ((tasks, none), s1))
    (hlen : tasks.len = 0)
    (hstats : CurrentStats s1 (r.vars "qname") = ((stats, none), s2)) :
    EmptyListing
      (newListActiveTasksHandlerFunc listTasks CurrentStats toTasks
        toQueueStateSnapshot Encode intSize r s).1
      (toQueueStateSnapshot stats) ∧
    EmptyListing
      (newListPendingTasksHandlerFunc listTasks CurrentStats toTasks
        toQueueStateSnapshot Encode intSize r s).1
      (toQueueStateSnapshot stats) ∧
    EmptyListing
      (newListScheduledTasksHandlerFunc listTasks CurrentStats toTasks
        toQueueStateSnapshot Encode intSize r s).1
      (toQueueStateSnapshot stats) ∧
    EmptyListing
      (newListRetryTasksHandlerFunc listTasks CurrentStats toTasks
        toQueueStateSnapshot Encode intSize r s).1
      (toQueueStateSnapshot stats) ∧
    EmptyListing
      (newListDeadTasksHandlerFunc listTasks CurrentStats toTasks
        toQueueStateSnapshot Encode intSize r s).1
      (toQueueStateSnapshot stats) :=
  ⟨listActive_empty listTasks CurrentStats toTasks toQueueStateSnapshot Encode intSize r s s1 s2
      tasks stats hlist hlen hstats,
    listPending_empty listTasks CurrentStats toTasks toQueueStateSnapshot Encode intSize r s s1 s2
      tasks stats hlist hlen hstats,
    listScheduled_empty listTasks CurrentStats toTasks toQueueStateSnapshot Encode intSize r s s1 s2
      tasks stats hlist hlen hstats,
    listRetry_empty listTasks CurrentStats toTasks toQueueStateSnapshot Encode intSize r s s1 s2
      tasks stats hlist hlen hstats,
    listDead_empty listTasks CurrentStats toTasks toQueueStateSnapshot Encode intSize r s s1 s2
      tasks stats hlist hlen hstats⟩

/-- C5 at a store whose listing is the nil slice. -/
theorem listing_empty_tasks_explicit_witness :
    noTasks () (sampleRequest.vars "qname") (getPageOptions 64 sampleRequest).1
        (getPageOptions 64 sampleRequest).2 = ((Slice.nil, none), ()) ∧
    (Slice.nil : Slice Nat).len = 0 ∧
    sampleStats () (sampleRequest.vars "qname") = ((7, none), ()) ∧
    EmptyListing
      (newListActiveTasksHandlerFunc noTasks sampleStats (fun t => t) (fun n => n)
        (fun _ => none) 64 sampleRequest ()).1 7 ∧
    EmptyListing
      (newListPendingTasksHandlerFunc noTasks sampleStats (fun t => t) (fun n => n)
        (fun _ => none) 64 sampleRequest ()).1 7 ∧
    EmptyListing
      (newListScheduledTasksHandlerFunc noTasks sampleStats (fun t => t) (fun n => n)
        (fun _ => none) 64 sampleRequest ()).1 7 ∧
    EmptyListing
      (newListRetryTasksHandlerFunc noTasks sampleStats (fun t => t) (fun n => n)
        (fun _ => none) 64 sampleRequest ()).1 7 ∧
    EmptyListing
      (newListDeadTasksHandlerFunc noTasks sampleStats (fun t => t) (fun n => n)
        (fun _ => none) 64 sampleRequest ()).1 7 :=
  ⟨rfl, rfl, rfl,
    listing_empty_tasks_explicit noTasks sampleStats (fun t => t) (fun n => n)
      (fun _ => none) 64 sampleRequest () () () Slice.nil 7 rfl rfl rfl⟩

/-- C6: for each of the five listing handlers, an error of the task-list
fetch or of the `CurrentStats` fetch is answered by `http.Error` with that
error's message and status 500 and no payload is handed to the encoder; a
payload is produced if and only if both fetches succeed. -/
theorem listing_fails_as_a_unit
    (listTasks : σ → String → Int → Int → (Slice Rec × Option GoError) × σ)
    (CurrentStats : σ → String → (Stats × Option GoError) × σ)
    (toTasks : Slice Rec → Slice View) (toQueueStateSnapshot : Stats → Snap)
    (Encode : Payload View Snap → Option GoError) (intSize : Nat) (r : Request) (s : σ) :
    FailsAsAUnit
      (listTasks s (r.vars "qname") (getPageOptions intSize r).1
        (getPageOptions intSize r).2).1.2
      (CurrentStats
        (listTasks s (r.vars "qname") (getPageOptions intSize r).1
          (getPageOptions intSize r).2).2 (r.vars "qname")).1.2
      (newListActiveTasksHandlerFunc listTasks CurrentStats toTasks
        toQueueStateSnapshot Encode intSize r s).1 ∧
    FailsAsAUnit
      (listTasks s (r.vars "qname") (getPageOptions intSize r).1
        (getPageOptions intSize r).2).1.2
      (CurrentStats
        (listTasks s (r.vars "qname") (getPageOptions intSize r).1
          (getPageOptions intSize r).2).2 (r.vars "qname")).1.2
      (newListPendingTasksHandlerFunc listTasks CurrentStats toTasks
        toQueueStateSnapshot Encode intSize r s).1 ∧
    FailsAsAUnit
      (listTasks s (r.vars "qname") (getPageOptions intSize r).1
        (getPageOptions intSize r).2).1.2
      (CurrentStats
        (listTasks s (r.vars "qname") (getPageOptions intSize r).1
          (getPageOptions intSize r).2).2 (r.vars "qname")).1.2
      (newListScheduledTasksHandlerFunc listTasks CurrentStats toTasks
        toQueueStateSnapshot Encode intSize r s).1 ∧
    FailsAsAUnit
      (listTasks s (r.vars "qname") (getPageOptions intSize r).1
        (getPageOptions intSize r).2).1.2
      (CurrentStats
        (listTasks s (r.vars "qname") (getPageOptions intSize r).1
          (getPageOptions intSize r).2).2 (r.vars "qname")).1.2
      (newListRetryTasksHandlerFunc listTasks CurrentStats toTasks
        toQueueStateSnapshot Encode intSize r s).1 ∧
    FailsAsAUnit
      (listTasks s (r.vars "qname") (getPageOptions intSize r).1
        (getPageOptions intSize r).2).1.2
      (CurrentStats
        (listTasks s (r.vars "qname") (getPageOptions intSize r).1
          (getPageOptions intSize r).2).2 (r.vars "qname")).1.2
      (newListDeadTasksHandlerFunc listTasks CurrentStats toTasks
        toQueueStateSnapshot Encode intSize r s).1 :=
  ⟨listActive_failure listTasks CurrentStats toTasks toQueueStateSnapshot Encode intSize r s,
    listPending_failure listTasks CurrentStats toTasks toQueueStateSnapshot Encode intSize r s,
    listScheduled_failure listTasks CurrentStats toTasks toQueueStateSnapshot Encode intSize r s,
    listRetry_failure listTasks CurrentStats toTasks toQueueStateSnapshot Encode intSize r s,
    listDead_failure listTasks CurrentStats toTasks toQueueStateSnapshot Encode intSize r s⟩

end Listing

/-! ## The batch-delete handler and the request body -/

section BatchBody

variable {σ : Type}

theorem oversizedBody_length : oversizedBody.length = 1000002 := by
  unfold oversizedBody
  rw [List.length_cons, List.length_cons, List.length_replicate]

theorem decodeAccepts_empty_object (rest : List Nat) (e : Option GoError) :
    decodeAccepts ⟨123 :: 125 :: rest, e⟩ = true := by
  simp [decodeAccepts, skipSpace, isSpace]

/-- A stream that starts with `{}` is accepted under every cap of at least
two bytes, whatever follows. -/
theorem decodeAccepts_capped_empty_object (rest : List Nat) (e : Option GoError) (n : Nat)
    (hn : 2 ≤ n) : decodeAccepts (MaxBytesReader ⟨123 :: 125 :: rest, e⟩ n) = true := by
  obtain ⟨m, rfl⟩ : ∃ m, n = m + 2 := ⟨n - 2, by omega⟩
  unfold MaxBytesReader
  split
  · exact decodeAccepts_empty_object rest e
  · simp only [List.take_succ_cons]
    exact decodeAccepts_empty_object _ _

/-- When the Go decoder accepts the capped body, the handler deletes nothing
and hands the zero response to the encoder. -/
theorem batchDelete_goDecode_accepted (del : σ → String → String → Option GoError × σ)
    (failure : Reader → GoError) (r : Request) (s : σ)
    (h : decodeAccepts (MaxBytesReader r.body maxRequestBodySize) = true) :
    newBatchDeleteDeadTasksHandlerFunc del (goDecode failure) (fun _ => none) r s
      = ([Effect.encode ⟨.nil, .nil⟩], [], s) := by
  simp only [newBatchDeleteDeadTasksHandlerFunc, goDecode, h, if_true, Slice.toList,
    batchDeleteLoop]

/-- C8 fails on the code: a body of 1,000,002 bytes, `{}` followed by
spaces, exceeds the cap of 1,000,000 bytes, and the handler does not answer
bad-request: the decoder has its value after two bytes, the rest of the body
is never read, and the handler hands the response to the encoder. -/
theorem batchDelete_oversized_body_not_rejected :
    oversizedRequest.body.data.length > maxRequestBodySize ∧
    (newBatchDeleteDeadTasksHandlerFunc (traced deleteOnce) (goDecode sampleFailure)
        (fun _ => none) oversizedRequest ([], [])).1
      = [Effect.encode ⟨.nil, .nil⟩] ∧
    ¬ (∃ msg, Effect.httpError msg StatusBadRequest ∈
        (newBatchDeleteDeadTasksHandlerFunc (traced deleteOnce) (goDecode sampleFailure)
          (fun _ => none) oversizedRequest ([], [])).1) := by
  have hlen : oversizedRequest.body.data.length > maxRequestBodySize := by
    show oversizedBody.length > maxRequestBodySize
    rw [oversizedBody_length]
    decide
  have hacc : decodeAccepts (MaxBytesReader oversizedRequest.body maxRequestBodySize)
      = true :=
    decodeAccepts_capped_empty_object (List.replicate 1000000 32) none maxRequestBodySize
      (by decide)
  have heff := batchDelete_goDecode_accepted (traced deleteOnce) sampleFailure
    oversizedRequest ([], []) hacc
  refine ⟨hlen, ?_, ?_⟩
  · rw [heff]
  · rw [heff]
    rintro ⟨msg, hmsg⟩
    simp at hmsg

/-- What the handler does with the Go decoder, for every request: when the
decoder accepts the capped body the key list is nil, no key is deleted and
the zero response goes to the encoder; otherwise the only effect is
`http.Error` with status 400. -/
theorem batchDelete_goDecode_result (del : σ → String → String → Option GoError × σ)
    (failure : Reader → GoError) (Encode : batchDeleteTasksResponse → Option GoError)
    (r : Request) (s : σ) :
    newBatchDeleteDeadTasksHandlerFunc del (goDecode failure) Encode r s
      = if decodeAccepts (MaxBytesReader r.body maxRequestBodySize) then
          (Effect.encode ⟨.nil, .nil⟩ ::
            (match Encode ⟨.nil, .nil⟩ with
              | some err => [Effect.httpError err.msg StatusInternalServerError]
              | none => []), [], s)
        else
          ([Effect.httpError (failure (MaxBytesReader r.body maxRequestBodySize)).msg
              StatusBadRequest], [], s) := by
  by_cases h : decodeAccepts (MaxBytesReader r.body maxRequestBodySize) = true
  · simp only [newBatchDeleteDeadTasksHandlerFunc, goDecode, h, if_true, Slice.toList,
      batchDeleteLoop]
    cases Encode ⟨.nil, .nil⟩ <;> rfl
  · simp only [newBatchDeleteDeadTasksHandlerFunc, goDecode, h, if_false]
    rfl

theorem decodeAccepts_keyedRequest :
    decodeAccepts (MaxBytesReader keyedRequest.body maxRequestBodySize) = false := by
  decide

/-- C1 fails on the code: a batch delete of the key `A`, sent as
`{"task_keys":["A"]}`, is answered by `http.Error` with status 400 and no
response is encoded, so `A` is in neither `deletedKeys` nor `failedKeys`; and
whatever the request, the handler either answers 400 or encodes the response
whose two lists are nil, so no key that is sent appears in any list. -/
theorem batchDelete_sent_key_in_no_list (del : σ → String → String → Option GoError × σ)
    (failure : Reader → GoError) (Encode : batchDeleteTasksResponse → Option GoError)
    (s : σ) :
    (newBatchDeleteDeadTasksHandlerFunc del (goDecode failure) Encode keyedRequest s).1
      = [Effect.httpError (failure (MaxBytesReader keyedRequest.body maxRequestBodySize)).msg
          StatusBadRequest] ∧
    (∀ r : Request,
      (newBatchDeleteDeadTasksHandlerFunc del (goDecode failure) Encode r s).1
          = [Effect.httpError (failure (MaxBytesReader r.body maxRequestBodySize)).msg
              StatusBadRequest] ∨
      (newBatchDeleteDeadTasksHandlerFunc del (goDecode failure) Encode r s).1
          = Effect.encode ⟨.nil, .nil⟩ ::
              (match Encode ⟨.nil, .nil⟩ with
                | some err => [Effect.httpError err.msg StatusInternalServerError]
                | none => [])) := by
  constructor
  · rw [batchDelete_goDecode_result, decodeAccepts_keyedRequest]
    rfl
  · intro r
    rw [batchDelete_goDecode_result]
    by_cases h : decodeAccepts (MaxBytesReader r.body maxRequestBodySize) = true
    · right
      rw [if_pos h]
    · left
      rw [if_neg h]

/-- C7 fails on the code: for a batch delete of the key `A`, sent as
`{"task_keys":["A"]}`, the handler makes no call of `DeleteTaskByKey`,
leaves the store as it was and answers with `http.Error` and status 400, a
request-level error; and whatever the request, the handler never calls
`DeleteTaskByKey`. -/
theorem batchDelete_keyed_request_no_attempt
    (del : σ → String → String → Option GoError × σ)
    (failure : Reader → GoError) (Encode : batchDeleteTasksResponse → Option GoError)
    (s : σ) :
    newBatchDeleteDeadTasksHandlerFunc (traced del) (goDecode failure) Encode keyedRequest
        (s, [])
      = ([Effect.httpError (failure (MaxBytesReader keyedRequest.body maxRequestBodySize)).msg
            StatusBadRequest], [], (s, [])) ∧
    (∀ r : Request,
      (newBatchDeleteDeadTasksHandlerFunc (traced del) (goDecode failure) Encode r
        (s, [])).2.2 = (s, [])) := by
  constructor
  · rw [batchDelete_goDecode_result, decodeAccepts_keyedRequest]
    rfl
  · intro r
    rw [batchDelete_goDecode_result]
    by_cases h : decodeAccepts (MaxBytesReader r.body maxRequestBodySize) = true
    · rw [if_pos h]
    · rw [if_neg h]

/-- C9 fails on the code: with zero keys (the body `{}`, or any decoder
outcome with a nil or an empty `taskKeys`) the handler hands the encoder the
response whose two slices are nil; neither
field of the response struct is exported, so the encoder writes the object
without members for every response: there is no `deleted_keys` and no
`failed_keys` member; and a nil slice would be written as `null`, not as an
empty array. -/
theorem batchDelete_zero_keys_encoding (del : σ → String → String → Option GoError × σ)
    (r : Request) (s : σ) :
    (newBatchDeleteDeadTasksHandlerFunc del (goDecode sampleFailure) (fun _ => none)
        emptyObjectRequest s).1
      = [Effect.encode ⟨.nil, .nil⟩] ∧
    (newBatchDeleteDeadTasksHandlerFunc del (fun _ => (⟨.nil⟩, none)) (fun _ => none) r s).1
      = [Effect.encode ⟨.nil, .nil⟩] ∧
    (newBatchDeleteDeadTasksHandlerFunc del (fun _ => (⟨.mk []⟩, none)) (fun _ => none) r s).1
      = [Effect.encode ⟨.nil, .nil⟩] ∧
    batchDeleteTasksResponse.Marshal ⟨.nil, .nil⟩ = JSON.obj [] ∧
    (∀ resp : batchDeleteTasksResponse,
      resp.Marshal.member "deleted_keys" = none ∧ resp.Marshal.member "failed_keys" = none) ∧
    marshalStrings .nil = JSON.null := by
  refine ⟨rfl, rfl, rfl, rfl, ?_, rfl⟩
  intro resp
  exact ⟨rfl, rfl⟩

end BatchBody

/-! ## Deleting one task -/

/-- C4 fails on the code: the handler answers a task-not-found error and any
other error of `DeleteTaskByKey` with the same status, 500, and with nothing
but the error's message; two errors with the same message get the same
response. -/
theorem deleteTask_notFound_same_status {σ : Type} (r : Request) (s : σ) (m1 m2 : String) :
    (newDeleteTaskHandlerFunc (fun st _ _ => (some ⟨m1, true⟩, st)) r s).1
      = [Effect.httpError m1 StatusInternalServerError] ∧
    (newDeleteTaskHandlerFunc (fun st _ _ => (some ⟨m2, false⟩, st)) r s).1
      = [Effect.httpError m2 StatusInternalServerError] ∧
    (newDeleteTaskHandlerFunc (fun st _ _ => (some ⟨m1, true⟩, st)) r s).1.map Effect.status
      = (newDeleteTaskHandlerFunc (fun st _ _ => (some ⟨m2, false⟩, st)) r s).1.map
          Effect.status ∧
    (newDeleteTaskHandlerFunc (fun st _ _ => (some ⟨m1, true⟩, st)) r s).1
      = (newDeleteTaskHandlerFunc (fun st _ _ => (some ⟨m1, false⟩, st)) r s).1 :=
  ⟨rfl, rfl, rfl, rfl⟩


end Asynqmon
